import Mathlib

/-!
Verification of the 3D transform-and-rendering core of the Ultron voxel
workstation (src/math3d, src/world, src/render).

The Python floating-point arithmetic is embedded over the exact rationals ℚ
(and over ℝ for the one operation that takes a square root), so every
"within floating tolerance" statement of the design document becomes an
exact identity here.  Matrices are 4×4 rational matrices; trigonometric
matrix constructors are parametrised by the pair (cos θ, sin θ) instead of
the angle θ, which is faithful to the source because the source only ever
uses the angle through `math.cos` and `math.sin`.
-/

/-- `Matrix4` from src/math3d/matrix.py: a 4×4 matrix, row-major
(`data[i][j]` = row `i`, column `j`), here with exact rational entries. -/
abbrev Matrix4 := Matrix (Fin 4) (Fin 4) ℚ

/-- `Matrix4.identity()`: ones on the diagonal, zeros elsewhere. -/
def Matrix4.identity : Matrix4 :=
  !![1, 0, 0, 0;
     0, 1, 0, 0;
     0, 0, 1, 0;
     0, 0, 0, 1]

/-- `Matrix4.from_translation(x, y, z)`: identity with the fourth column's
first three entries set to `x, y, z`. -/
def Matrix4.from_translation (x y z : ℚ) : Matrix4 :=
  !![1, 0, 0, x;
     0, 1, 0, y;
     0, 0, 1, z;
     0, 0, 0, 1]

/-- `Matrix4.from_scale(sx, sy, sz)`: identity with the diagonal's first
three entries set to `sx, sy, sz`. -/
def Matrix4.from_scale (sx sy sz : ℚ) : Matrix4 :=
  !![sx, 0, 0, 0;
     0, sy, 0, 0;
     0, 0, sz, 0;
     0, 0, 0, 1]

/-- `Matrix4.from_rotation_x(angle)` with `c = cos angle`, `s = sin angle`
as explicit parameters. -/
def Matrix4.from_rotation_x (c s : ℚ) : Matrix4 :=
  !![1, 0, 0, 0;
     0, c, -s, 0;
     0, s, c, 0;
     0, 0, 0, 1]

/-- `Matrix4.from_rotation_y(angle)` with `c = cos angle`, `s = sin angle`. -/
def Matrix4.from_rotation_y (c s : ℚ) : Matrix4 :=
  !![c, 0, s, 0;
     0, 1, 0, 0;
     -s, 0, c, 0;
     0, 0, 0, 1]

/-- `Matrix4.from_rotation_z(angle)` with `c = cos angle`, `s = sin angle`. -/
def Matrix4.from_rotation_z (c s : ℚ) : Matrix4 :=
  !![c, -s, 0, 0;
     s, c, 0, 0;
     0, 0, 1, 0;
     0, 0, 0, 1]

/-- `Matrix4.multiply(other)`: `result[i][j] = Σ_k self[i][k] · other[k][j]`. -/
def Matrix4.multiply (a b : Matrix4) : Matrix4 :=
  Matrix.of fun i j => ∑ k, a i k * b k j

/-- `Matrix4.transform_point(point)`: applies the matrix to the homogeneous
point `(x, y, z, 1)` and returns the full 4-tuple `(tx, ty, tz, tw)`. -/
def Matrix4.transform_point (m : Matrix4) (p : ℚ × ℚ × ℚ) : ℚ × ℚ × ℚ × ℚ :=
  let x := p.1
  let y := p.2.1
  let z := p.2.2
  let w : ℚ := 1
  (m 0 0 * x + m 0 1 * y + m 0 2 * z + m 0 3 * w,
   m 1 0 * x + m 1 1 * y + m 1 2 * z + m 1 3 * w,
   m 2 0 * x + m 2 1 * y + m 2 2 * z + m 2 3 * w,
   m 3 0 * x + m 3 1 * y + m 3 2 * z + m 3 3 * w)

/-- `Matrix4.inverse()`: `numpy.linalg.inv` raises `LinAlgError` on a
singular matrix, which the source catches and turns into `None`; on an
invertible matrix it returns the matrix inverse.  Over exact arithmetic
this is: `none` when the determinant is zero, otherwise the inverse
(written as `det⁻¹ • adjugate` so the definition stays computable). -/
def Matrix4.inverse (m : Matrix4) : Option Matrix4 :=
  if m.det = 0 then none else some (m.det⁻¹ • m.adjugate)

theorem Matrix4.identity_eq_one : Matrix4.identity = (1 : Matrix4) := by
  ext i j
  fin_cases i <;> fin_cases j <;>
    simp [Matrix4.identity, Matrix.one_apply, Matrix.vecHead, Matrix.vecTail]

theorem Matrix4.multiply_eq_mul (a b : Matrix4) : Matrix4.multiply a b = a * b := by
  ext i j
  simp [Matrix4.multiply, Matrix.mul_apply]

/-- `Vector3` from src/math3d/vector.py, over ℝ because `length` takes a
square root. -/
structure Ultron.Vector3 where
  x : ℝ
  y : ℝ
  z : ℝ

/-- `Vector3.length()`: `math.sqrt(x*x + y*y + z*z)`. -/
noncomputable def Ultron.Vector3.length (v : Ultron.Vector3) : ℝ :=
  Real.sqrt (v.x * v.x + v.y * v.y + v.z * v.z)

/-- `Vector3.__truediv__(scalar)`: componentwise division. -/
noncomputable def Ultron.Vector3.truediv (v : Ultron.Vector3) (s : ℝ) : Ultron.Vector3 :=
  ⟨v.x / s, v.y / s, v.z / s⟩

/-- `Vector3.normalize()`: `self / length` when `length > 0`, else the zero
vector `Vector3(0, 0, 0)`. -/
noncomputable def Ultron.Vector3.normalize (v : Ultron.Vector3) : Ultron.Vector3 :=
  if v.length > 0 then v.truediv v.length else ⟨0, 0, 0⟩

/-- Voxel colors are RGB triples (opaque values as far as this core goes). -/
abbrev Color := ℕ × ℕ × ℕ

/-- `VoxelGrid` from src/world/voxel_grid.py: a size, a sparse mapping from
integer grid coordinates to colors (embedded as an association list of its
entries, which is what `get_all_voxels` yields), and one accumulated object
transform.  A fresh grid (`create_sample=False`) has an empty mapping and
the identity transform. -/
structure VoxelGrid where
  size : ℕ × ℕ × ℕ
  grid : List ((ℤ × ℤ × ℤ) × Color)
  transform : Matrix4

/-- `VoxelGrid(size)` with `create_sample=False`. -/
def VoxelGrid.init (size : ℕ × ℕ × ℕ) : VoxelGrid :=
  ⟨size, [], Matrix4.identity⟩

/-- `VoxelGrid.get_all_voxels()`: the `(position, color)` entries. -/
def VoxelGrid.get_all_voxels (g : VoxelGrid) : List ((ℤ × ℤ × ℤ) × Color) :=
  g.grid

/-- `VoxelGrid.translate(x, y, z)`: `transform = T · transform`. -/
def VoxelGrid.translate (g : VoxelGrid) (x y z : ℚ) : VoxelGrid :=
  { g with transform := (Matrix4.from_translation x y z).multiply g.transform }

/-- Python `str.lower()`: lowercase every character. -/
def py_lower (s : String) : String := ⟨s.data.map Char.toLower⟩

/-- `VoxelGrid.rotate(axis, angle)` with `(c, s) = (cos angle, sin angle)`:
matches on `axis.lower()`; an unrecognised axis hits the bare `return` and
leaves the grid untouched.  `transform = R · transform` otherwise. -/
def VoxelGrid.rotate (g : VoxelGrid) (axis : String) (c s : ℚ) : VoxelGrid :=
  if py_lower axis = "x" then
    { g with transform := (Matrix4.from_rotation_x c s).multiply g.transform }
  else if py_lower axis = "y" then
    { g with transform := (Matrix4.from_rotation_y c s).multiply g.transform }
  else if py_lower axis = "z" then
    { g with transform := (Matrix4.from_rotation_z c s).multiply g.transform }
  else
    g

/-- `VoxelGrid.scale(factor)`: `transform = S · transform` with uniform
scale `S = from_scale(factor, factor, factor)`. -/
def VoxelGrid.scale (g : VoxelGrid) (factor : ℚ) : VoxelGrid :=
  { g with transform := (Matrix4.from_scale factor factor factor).multiply g.transform }

/-- `distance_squared(voxel)` from `sort_voxels_by_depth`
(src/world/voxel_ops.py): squared Euclidean distance from the camera
position to the voxel's position, via `dx*dx + dy*dy + dz*dz`. -/
def distance_squared (cam : ℚ × ℚ × ℚ) (voxel : (ℚ × ℚ × ℚ) × Color) : ℚ :=
  let dx := voxel.1.1 - cam.1
  let dy := voxel.1.2.1 - cam.2.1
  let dz := voxel.1.2.2 - cam.2.2
  dx * dx + dy * dy + dz * dz

/-- `sort_voxels_by_depth(voxels, camera)`: stable sort of the
`(position, color)` list by `distance_squared`, descending (farthest
first); `sorted(..., reverse=True)` places `a` before `b` when
`key b ≤ key a`. -/
def sort_voxels_by_depth (voxels : List ((ℚ × ℚ × ℚ) × Color)) (cam : ℚ × ℚ × ℚ) :
    List ((ℚ × ℚ × ℚ) × Color) :=
  voxels.mergeSort fun a b => decide (distance_squared cam b ≤ distance_squared cam a)

/-- Step 2 of the render loop in src/main.py: transform each voxel's center
by the object transform, keeping the color and the original position:
`((tx, ty, tz), color, pos)`. -/
def transform_center (t : Matrix4) (pc : (ℤ × ℤ × ℤ) × Color) :
    (ℚ × ℚ × ℚ) × Color × (ℤ × ℤ × ℤ) :=
  let q := t.transform_point ((pc.1.1 : ℚ), (pc.1.2.1 : ℚ), (pc.1.2.2 : ℚ))
  ((q.1, q.2.1, q.2.2.1), pc.2, pc.1)

/-- `get_dist_sq(v_pack)` from the render loop in src/main.py: squared
distance from the camera position to the pack's transformed center, via
`(t_pos[i] - c_i)**2` sums. -/
def get_dist_sq (cam : ℚ × ℚ × ℚ) (vpack : (ℚ × ℚ × ℚ) × Color × (ℤ × ℤ × ℤ)) : ℚ :=
  (vpack.1.1 - cam.1) ^ 2 + (vpack.1.2.1 - cam.2.1) ^ 2 + (vpack.1.2.2 - cam.2.2) ^ 2

/-- The per-frame depth ordering of the render loop in src/main.py:
build the `(transformed_center, color, original_pos)` packs, then
`transformed_voxels_for_sort.sort(key=get_dist_sq, reverse=True)`. -/
def render_depth_sort (t : Matrix4) (cam : ℚ × ℚ × ℚ)
    (raw : List ((ℤ × ℤ × ℤ) × Color)) : List ((ℚ × ℚ × ℚ) × Color × (ℤ × ℤ × ℤ)) :=
  (raw.map (transform_center t)).mergeSort fun a b =>
    decide (get_dist_sq cam b ≤ get_dist_sq cam a)

/-- Squared Euclidean distance from the camera position to a voxel center
transformed by the object transform — the key the depth ordering sorts by,
expressed directly on the original grid coordinate. -/
def transformed_center_dist (t : Matrix4) (cam : ℚ × ℚ × ℚ) (pos : ℤ × ℤ × ℤ) : ℚ :=
  let q := t.transform_point ((pos.1 : ℚ), (pos.2.1 : ℚ), (pos.2.2 : ℚ))
  (q.1 - cam.1) ^ 2 + (q.2.1 - cam.2.1) ^ 2 + (q.2.2.1 - cam.2.2) ^ 2

/-- Python `int(...)` on a float: truncation toward zero. -/
def int_trunc (q : ℚ) : ℤ :=
  if 0 ≤ q then ⌊q⌋ else ⌈q⌉

/-- `viewport_transform(ndc_point, width, height)` from
src/math3d/projection.py: `screen_x = (x_ndc + 1) · 0.5 · width`,
`screen_y = (1 - y_ndc) · 0.5 · height` (Y flipped), both truncated to
ints. -/
def viewport_transform (ndc : ℚ × ℚ) (width height : ℚ) : ℤ × ℤ :=
  let screen_x := (ndc.1 + 1) * (1 / 2) * width
  let screen_y := (1 - ndc.2) * (1 / 2) * height
  (int_trunc screen_x, int_trunc screen_y)

/-- `project_3d_to_2d(point_3d, camera, screen_width, screen_height)` from
src/render/pseudo3d.py.  The source derives `view` and `proj` from the
camera (`camera.get_view_matrix()` and
`camera.get_projection_matrix(aspect)`); the embedding takes those two
derived matrices as parameters, so a statement over all `view` matrices
covers every camera pose.  Steps: view transform, reject when view-space
`z ≥ 0`; projection transform; reject when `|clip.w| < 1e-6`; perspective
divide; reject when `|ndc.x| > 1.5` or `|ndc.y| > 1.5`; viewport transform;
depth `(ndc.z + 1) · 0.5`. -/
def project_3d_to_2d (view proj : Matrix4) (point : ℚ × ℚ × ℚ) (w h : ℚ) :
    Option (ℤ × ℤ × ℚ) :=
  let vs := view.transform_point point
  if vs.2.2.1 ≥ 0 then none
  else
    let cs := proj.transform_point (vs.1, vs.2.1, vs.2.2.1)
    let cw := cs.2.2.2
    if |cw| < 1 / 1000000 then none
    else
      let ndc_x := cs.1 / cw
      let ndc_y := cs.2.1 / cw
      let ndc_z := cs.2.2.1 / cw
      if |ndc_x| > 3 / 2 ∨ |ndc_y| > 3 / 2 then none
      else
        let sp := viewport_transform (ndc_x, ndc_y) w h
        let depth := (ndc_z + 1) * (1 / 2)
        some (sp.1, sp.2, depth)

/-- Python `round(...)`: round half to even (banker's rounding). -/
def pyround (q : ℚ) : ℤ :=
  let f := ⌊q⌋
  if q - f < 1 / 2 then f
  else if 1 / 2 < q - f then f + 1
  else if f % 2 = 0 then f else f + 1

/-- `map_depth_to_world(depth_normalized, min_depth, max_depth)` from
src/vision/depth_mapper.py with the default
`input_range = (-0.15, 0.05)`: clamp, normalise to `[0, 1]`, invert, map
to `[min_depth, max_depth]`. -/
def map_depth_to_world (depth_normalized min_depth max_depth : ℚ) : ℚ :=
  let input_min : ℚ := -(3 / 20)
  let input_max : ℚ := 1 / 20
  let depth_clamped := max input_min (min depth_normalized input_max)
  let normalized := (depth_clamped - input_min) / (input_max - input_min)
  let inverted := 1 - normalized
  min_depth + inverted * (max_depth - min_depth)

/-- `VoxelEditor.hand_to_world(hand_x, hand_y, hand_z, screen_width,
screen_height)` from src/world/voxel_editor.py, parametrised by the
editor's grid.  Maps the hand to `world = ((hand_x-0.5)·10,
-(hand_y-0.5)·10, map_depth_to_world(hand_z, -3, 3))`; when the grid's
transform has an inverse, returns the rounded inverse-transformed point,
otherwise the rounded world point.  (`if self.voxel_grid.transform:` is
always true — a `Matrix4` object is truthy — so only the `inverse()`
check can skip the mapping.  The screen size arguments are unused.) -/
def hand_to_world (g : VoxelGrid) (hand_x hand_y hand_z : ℚ)
    (_screen_width _screen_height : ℚ) : ℤ × ℤ × ℤ :=
  let world_x := (hand_x - 1 / 2) * 10
  let world_y := -((hand_y - 1 / 2) * 10)
  let world_z := map_depth_to_world hand_z (-3) 3
  let grid_x := pyround world_x
  let grid_y := pyround world_y
  let grid_z := pyround world_z
  match Matrix4.inverse g.transform with
  | some inv =>
    let l := inv.transform_point (world_x, world_y, world_z)
    (pyround l.1, pyround l.2.1, pyround l.2.2.1)
  | none => (grid_x, grid_y, grid_z)

/-- C7: `Matrix4.identity()` is a two-sided identity for
`Matrix4.multiply`: `identity().multiply(M) = M` and
`M.multiply(identity()) = M`, entrywise, for every 4×4 matrix `M`. -/
theorem C7_identity_two_sided (m : Matrix4) :
    Matrix4.multiply Matrix4.identity m = m ∧ Matrix4.multiply m Matrix4.identity = m := by
  rw [Matrix4.multiply_eq_mul, Matrix4.multiply_eq_mul, Matrix4.identity_eq_one]
  exact ⟨one_mul m, mul_one m⟩

/-- C9: the viewport transform maps NDC `(0, 0)` at screen size 1920×1080
exactly to the screen point `(960, 540)`. -/
theorem C9_viewport_center : viewport_transform (0, 0) 1920 1080 = (960, 540) := by
  rw [viewport_transform]
  norm_num [int_trunc]

/-- C10: each of `translate`, `rotate` (any axis string, valid or not), and
`scale` leaves the voxel mapping (`get_all_voxels`) and the `size` field of
the grid unchanged, for all argument values: only the stored object
transform is modified. -/
theorem C10_ops_touch_only_transform (g : VoxelGrid) (x y z c s factor : ℚ)
    (axis : String) :
    ((g.translate x y z).get_all_voxels = g.get_all_voxels
      ∧ (g.translate x y z).size = g.size)
    ∧ ((g.rotate axis c s).get_all_voxels = g.get_all_voxels
      ∧ (g.rotate axis c s).size = g.size)
    ∧ ((g.scale factor).get_all_voxels = g.get_all_voxels
      ∧ (g.scale factor).size = g.size) := by
  refine ⟨⟨rfl, rfl⟩, ?_, rfl, rfl⟩
  unfold VoxelGrid.rotate
  split_ifs <;> exact ⟨rfl, rfl⟩

/-- C8: `Vector3.normalize` returns the zero vector when the length is
zero (no error: the division branch is guarded by `length > 0`, and since
a square root is never negative, the guard excludes exactly the
zero-length case), and for every vector of nonzero length it returns the
vector divided by its length. -/
theorem C8_normalize_guard (v : Ultron.Vector3) :
    (v.length = 0 → v.normalize = ⟨0, 0, 0⟩)
    ∧ (v.length ≠ 0 → v.normalize = v.truediv v.length) := by
  constructor
  · intro h
    rw [Ultron.Vector3.normalize, if_neg]
    rw [h]
    exact lt_irrefl 0
  · intro h
    have hnn : 0 ≤ v.length := Real.sqrt_nonneg (v.x * v.x + v.y * v.y + v.z * v.z)
    have hpos : v.length > 0 := lt_of_le_of_ne hnn (Ne.symm h)
    rw [Ultron.Vector3.normalize, if_pos hpos]

/-- Witness for C8 at the zero vector and at `(3, 4, 0)` (length 5). -/
theorem C8_normalize_guard_witness :
    Ultron.Vector3.length ⟨0, 0, 0⟩ = 0
    ∧ Ultron.Vector3.normalize ⟨0, 0, 0⟩ = (⟨0, 0, 0⟩ : Ultron.Vector3)
    ∧ Ultron.Vector3.length ⟨3, 4, 0⟩ ≠ 0
    ∧ Ultron.Vector3.normalize ⟨3, 4, 0⟩
        = Ultron.Vector3.truediv ⟨3, 4, 0⟩ (Ultron.Vector3.length ⟨3, 4, 0⟩) := by
  have h0 : Ultron.Vector3.length ⟨0, 0, 0⟩ = 0 := by
    rw [Ultron.Vector3.length]
    norm_num
  have h5 : Ultron.Vector3.length ⟨3, 4, 0⟩ = 5 := by
    rw [Ultron.Vector3.length]
    rw [show ((3 : ℝ) * 3 + 4 * 4 + 0 * 0) = 5 ^ 2 by norm_num]
    exact Real.sqrt_sq (by norm_num)
  have hne : Ultron.Vector3.length ⟨3, 4, 0⟩ ≠ 0 := by
    rw [h5]
    norm_num
  exact ⟨h0, (C8_normalize_guard ⟨0, 0, 0⟩).1 h0, hne, (C8_normalize_guard ⟨3, 4, 0⟩).2 hne⟩

/-- C5 counterexample: the claim says a malformed axis identifier makes
`VoxelGrid.rotate` fail loudly (raise or assert).  In fact the source hits
the bare `else: return` branch: calling `rotate` on a concrete grid with
the malformed axis `"w"` returns normally with the grid completely
unchanged — it is silently tolerated, not a loud failure. -/
theorem C5_counterexample :
    (VoxelGrid.init (32, 32, 32)).rotate "w" 1 0 = VoxelGrid.init (32, 32, 32) := by
  rw [VoxelGrid.rotate, if_neg (by decide), if_neg (by decide), if_neg (by decide)]

/-- C5 amended: calling `VoxelGrid.rotate` with a malformed axis
identifier (any string whose lowercase form is none of `"x"`, `"y"`,
`"z"`) is silently tolerated: the call returns normally and leaves the
grid — transform included — completely unchanged. -/
theorem C5_rotate_invalid_axis_noop (g : VoxelGrid) (axis : String) (c s : ℚ)
    (hx : py_lower axis ≠ "x") (hy : py_lower axis ≠ "y") (hz : py_lower axis ≠ "z") :
    g.rotate axis c s = g := by
  rw [VoxelGrid.rotate, if_neg hx, if_neg hy, if_neg hz]

/-- Witness for the amended C5 at the axis string `"W!"`. -/
theorem C5_rotate_invalid_axis_noop_witness :
    py_lower "W!" ≠ "x" ∧ py_lower "W!" ≠ "y" ∧ py_lower "W!" ≠ "z"
    ∧ (VoxelGrid.init (1, 1, 1)).rotate "W!" 0 1 = VoxelGrid.init (1, 1, 1) :=
  ⟨by decide, by decide, by decide,
    C5_rotate_invalid_axis_noop (VoxelGrid.init (1, 1, 1)) "W!" 0 1
      (by decide) (by decide) (by decide)⟩

/-- C3: for every view matrix (hence every camera pose), every projection
matrix, every 3D point and every positive screen size, `project_3d_to_2d`
returns `none` whenever the point's view-space Z coordinate — the third
component of the view matrix applied to the point — is ≥ 0. -/
theorem C3_project_rejects_behind_camera (view proj : Matrix4) (p : ℚ × ℚ × ℚ)
    (w h : ℚ) (_hw : 0 < w) (_hh : 0 < h)
    (hz : 0 ≤ (view.transform_point p).2.2.1) :
    project_3d_to_2d view proj p w h = none := by
  rw [project_3d_to_2d]
  exact if_pos hz

/-- Witness for C3: the identity view matrix and the point `(0, 0, 1)`,
whose view-space Z is `1 ≥ 0`. -/
theorem C3_project_rejects_behind_camera_witness :
    (0 : ℚ) < 1920 ∧ (0 : ℚ) < 1080
    ∧ 0 ≤ (Matrix4.identity.transform_point (0, 0, 1)).2.2.1
    ∧ project_3d_to_2d Matrix4.identity Matrix4.identity (0, 0, 1) 1920 1080 = none :=
  ⟨by norm_num, by norm_num,
    by norm_num [Matrix4.transform_point, Matrix4.identity],
    C3_project_rejects_behind_camera Matrix4.identity Matrix4.identity (0, 0, 1)
      1920 1080 (by norm_num) (by norm_num)
      (by norm_num [Matrix4.transform_point, Matrix4.identity])⟩

/-- C1 counterexample: the claim says translate(10,20,30) followed by
scale(2) on a fresh grid maps (1,1,1) to (12,22,32), translation
outermost.  Under the source's left-multiplication (`new = Op · old`) the
accumulated transform after that call order is `S · T`, the *scale* is
outermost, and (1,1,1) maps to (22,42,62) — first component 22, not 12. -/
theorem C1_counterexample :
    ((((VoxelGrid.init (32, 32, 32)).translate 10 20 30).scale 2).transform.transform_point
        (1, 1, 1)) = (22, 42, 62, 1)
    ∧ ((((VoxelGrid.init (32, 32, 32)).translate 10 20 30).scale 2).transform.transform_point
        (1, 1, 1)).1 ≠ 12 := by
  have h : (((VoxelGrid.init (32, 32, 32)).translate 10 20 30).scale 2).transform.transform_point
      (1, 1, 1) = (22, 42, 62, 1) := by
    simp [VoxelGrid.init, VoxelGrid.translate, VoxelGrid.scale, Matrix4.multiply,
      Matrix4.transform_point, Matrix4.identity, Matrix4.from_translation,
      Matrix4.from_scale, Fin.sum_univ_four, Matrix.vecHead, Matrix.vecTail]
    norm_num
  refine ⟨h, ?_⟩
  rw [h]
  norm_num

/-- C1 amended: on a fresh grid, translate(10,20,30) then scale(2) (each
left-multiplied onto the stored transform) maps (1,1,1) to (22,42,62) —
the most recently applied operation, the scale, is outermost; the claimed
point (12,22,32), with the translation outermost, is produced by the
opposite call order scale(2) then translate(10,20,30). -/
theorem C1_left_multiplication_order :
    ((((VoxelGrid.init (32, 32, 32)).translate 10 20 30).scale 2).transform.transform_point
        (1, 1, 1)) = (22, 42, 62, 1)
    ∧ ((((VoxelGrid.init (32, 32, 32)).scale 2).translate 10 20 30).transform.transform_point
        (1, 1, 1)) = (12, 22, 32, 1) := by
  constructor <;>
  · simp [VoxelGrid.init, VoxelGrid.translate, VoxelGrid.scale, Matrix4.multiply,
      Matrix4.transform_point, Matrix4.identity, Matrix4.from_translation,
      Matrix4.from_scale, Fin.sum_univ_four, Matrix.vecHead, Matrix.vecTail]
    norm_num

theorem Matrix4.from_translation_mul_neg (x y z : ℚ) :
    Matrix4.from_translation x y z * Matrix4.from_translation (-x) (-y) (-z) = 1 := by
  ext i j
  fin_cases i <;> fin_cases j <;>
    simp [Matrix4.from_translation, Matrix.mul_apply, Fin.sum_univ_four,
      Matrix.one_apply, Matrix.vecHead, Matrix.vecTail]

theorem Matrix4.inverse_from_translation (x y z : ℚ) :
    Matrix4.inverse (Matrix4.from_translation x y z)
      = some (Matrix4.from_translation (-x) (-y) (-z)) := by
  have h := Matrix4.from_translation_mul_neg x y z
  have hd : (Matrix4.from_translation x y z).det
      * (Matrix4.from_translation (-x) (-y) (-z)).det = 1 := by
    rw [← Matrix.det_mul, h, Matrix.det_one]
  have hne : (Matrix4.from_translation x y z).det ≠ 0 := left_ne_zero_of_mul_eq_one hd
  have hinv : (Matrix4.from_translation x y z)⁻¹ = Matrix4.from_translation (-x) (-y) (-z) :=
    Matrix.inv_eq_right_inv h
  rw [Matrix4.inverse, if_neg hne, ← hinv, Matrix.inv_def, Ring.inverse_eq_inv']

/-- C6: for every translation matrix `T = from_translation(x, y, z)` and
every 3D point `p`, `inverse()` succeeds on `T` and applying
`T.transform_point` then `T.inverse().transform_point` returns `p`
exactly (the round-trip of the spec, exact over the rational
embedding). -/
theorem C6_translation_inverse_roundtrip (x y z px py pz : ℚ) :
    ∃ ti : Matrix4, Matrix4.inverse (Matrix4.from_translation x y z) = some ti
    ∧ (let q := (Matrix4.from_translation x y z).transform_point (px, py, pz)
       let r := ti.transform_point (q.1, q.2.1, q.2.2.1)
       r.1 = px ∧ r.2.1 = py ∧ r.2.2.1 = pz) := by
  refine ⟨Matrix4.from_translation (-x) (-y) (-z),
    Matrix4.inverse_from_translation x y z, ?_, ?_, ?_⟩ <;>
  · simp [Matrix4.transform_point, Matrix4.from_translation,
      Matrix.vecHead, Matrix.vecTail]

/-- C4: `Matrix4.inverse` on a singular matrix (zero determinant, where
`numpy.linalg.inv` raises the `LinAlgError` the source catches) returns
the sentinel `none` rather than failing or propagating NaNs, and
grid-space picking `hand_to_world` stays total when the grid's object
transform is non-invertible: it skips the inverse-transform mapping and
returns the world-space point snapped to the grid instead. -/
theorem C4_singular_inverse_recoverable (m : Matrix4) (g : VoxelGrid)
    (hand_x hand_y hand_z sw sh : ℚ) (hm : m.det = 0) (hg : g.transform.det = 0) :
    Matrix4.inverse m = none
    ∧ hand_to_world g hand_x hand_y hand_z sw sh
        = (pyround ((hand_x - 1 / 2) * 10), pyround (-((hand_y - 1 / 2) * 10)),
           pyround (map_depth_to_world hand_z (-3) 3)) := by
  have hgn : Matrix4.inverse g.transform = none := by
    rw [Matrix4.inverse, if_pos hg]
  refine ⟨by rw [Matrix4.inverse, if_pos hm], ?_⟩
  rw [hand_to_world]
  rw [hgn]

/-- Witness for C4: a grid whose transform has collapsed to zero scale,
with the hand at the center of the screen; the inverse fails and the
snapped world point `(-5, 5, -2)` comes back. -/
theorem C4_singular_inverse_recoverable_witness :
    Matrix4.inverse (Matrix4.from_scale 0 0 0) = none
    ∧ hand_to_world ⟨(32, 32, 32), [], Matrix4.from_scale 0 0 0⟩ 0 0 0 1920 1080
        = (-5, 5, -2) := by
  have hdet : (Matrix4.from_scale 0 0 0).det = 0 := by
    simp [Matrix4.from_scale, Matrix.det_succ_row_zero, Fin.sum_univ_succ]
  obtain ⟨h1, h2⟩ := C4_singular_inverse_recoverable (Matrix4.from_scale 0 0 0)
    ⟨(32, 32, 32), [], Matrix4.from_scale 0 0 0⟩ 0 0 0 1920 1080 hdet hdet
  refine ⟨h1, h2.trans ?_⟩
  norm_num [pyround, map_depth_to_world, min_def, max_def]

theorem get_dist_sq_trans (cam : ℚ × ℚ × ℚ)
    (a b c : (ℚ × ℚ × ℚ) × Color × (ℤ × ℤ × ℤ))
    (hab : decide (get_dist_sq cam b ≤ get_dist_sq cam a) = true)
    (hbc : decide (get_dist_sq cam c ≤ get_dist_sq cam b) = true) :
    decide (get_dist_sq cam c ≤ get_dist_sq cam a) = true := by
  simp only [decide_eq_true_eq] at *
  exact le_trans hbc hab

theorem get_dist_sq_total (cam : ℚ × ℚ × ℚ)
    (a b : (ℚ × ℚ × ℚ) × Color × (ℤ × ℤ × ℤ)) :
    (decide (get_dist_sq cam b ≤ get_dist_sq cam a)
      || decide (get_dist_sq cam a ≤ get_dist_sq cam b)) = true := by
  simp only [Bool.or_eq_true, decide_eq_true_eq]
  exact le_total _ _

theorem distance_squared_trans (cam : ℚ × ℚ × ℚ) (a b c : (ℚ × ℚ × ℚ) × Color)
    (hab : decide (distance_squared cam b ≤ distance_squared cam a) = true)
    (hbc : decide (distance_squared cam c ≤ distance_squared cam b) = true) :
    decide (distance_squared cam c ≤ distance_squared cam a) = true := by
  simp only [decide_eq_true_eq] at *
  exact le_trans hbc hab

theorem distance_squared_total (cam : ℚ × ℚ × ℚ) (a b : (ℚ × ℚ × ℚ) × Color) :
    (decide (distance_squared cam b ≤ distance_squared cam a)
      || decide (distance_squared cam a ≤ distance_squared cam b)) = true := by
  simp only [Bool.or_eq_true, decide_eq_true_eq]
  exact le_total _ _

/-- C2: the per-frame depth ordering is a permutation of the input voxel
list ordered by squared Euclidean distance from the camera position to
each voxel's center transformed by the grid's object transform,
descending: (a) projecting the render-loop sort's output packs back to
`(position, color)` pairs permutes the input list; (b) along the output,
every adjacent pair has non-increasing transformed-center distance to the
camera; and the equivalent `sort_voxels_by_depth` — which the loop feeds
with already-transformed centers — likewise (c) permutes its input and
(d) sorts it by the same squared-distance key, descending. -/
theorem C2_depth_sort_descending (t : Matrix4) (cam : ℚ × ℚ × ℚ)
    (raw : List ((ℤ × ℤ × ℤ) × Color)) (vs : List ((ℚ × ℚ × ℚ) × Color)) :
    ((render_depth_sort t cam raw).map fun pack => (pack.2.2, pack.2.1)).Perm raw
    ∧ List.Chain' (fun a b =>
        transformed_center_dist t cam b.2.2 ≤ transformed_center_dist t cam a.2.2)
        (render_depth_sort t cam raw)
    ∧ (sort_voxels_by_depth vs cam).Perm vs
    ∧ List.Chain' (fun a b => distance_squared cam b ≤ distance_squared cam a)
        (sort_voxels_by_depth vs cam) := by
  have hperm : (render_depth_sort t cam raw).Perm (raw.map (transform_center t)) :=
    List.mergeSort_perm (raw.map (transform_center t)) _
  refine ⟨?_, ?_, ?_, ?_⟩
  · have h2 := hperm.map fun pack => (pack.2.2, pack.2.1)
    have h3 : ((raw.map (transform_center t)).map fun pack => (pack.2.2, pack.2.1)) = raw := by
      rw [List.map_map]
      have hcomp : ((fun pack => (pack.2.2, pack.2.1))
          ∘ transform_center t) = @id ((ℤ × ℤ × ℤ) × Color) := by
        funext pc
        cases pc
        rfl
      rw [hcomp, List.map_id]
    rw [h3] at h2
    exact h2
  · have hsorted := List.sorted_mergeSort (get_dist_sq_trans cam) (get_dist_sq_total cam)
      (raw.map (transform_center t))
    have hmem : ∀ p ∈ render_depth_sort t cam raw,
        get_dist_sq cam p = transformed_center_dist t cam p.2.2 := by
      intro p hp
      have hp2 : p ∈ raw.map (transform_center t) := hperm.mem_iff.mp hp
      obtain ⟨pc, _, rfl⟩ := List.mem_map.mp hp2
      rfl
    have hpw : List.Pairwise (fun a b =>
        transformed_center_dist t cam b.2.2 ≤ transformed_center_dist t cam a.2.2)
        (render_depth_sort t cam raw) := by
      refine List.Pairwise.imp_of_mem ?_ hsorted
      intro a b ha hb hr
      rw [← hmem a ha, ← hmem b hb]
      exact of_decide_eq_true hr
    exact hpw.chain'
  · exact List.mergeSort_perm vs _
  · have hsorted := List.sorted_mergeSort (distance_squared_trans cam)
      (distance_squared_total cam) vs
    have hpw : List.Pairwise (fun a b =>
        distance_squared cam b ≤ distance_squared cam a) (sort_voxels_by_depth vs cam) :=
      hsorted.imp fun hr => of_decide_eq_true hr
    exact hpw.chain'
